import Mathlib

/-!
# Verification of the SIP media negotiation module (sipe-media.c)

A shallow embedding of the SDP codec, codec negotiator, candidate resolver
and call state machine of `src/core/sipe-media.c`, together with theorems
settling the specification claims about them.

Conventions:
* GLib strings are Lean `String`s; `NULL` string-typed values are `Option String`.
* `GSList`/`GList` containers are Lean `List`s.
* C unsigned integer casts are explicit `% 2^w` reductions on `Int`/`Nat`.
* Places where the C performs an out-of-bounds read / NULL dereference are
  modelled with `Option`, `none` marking the undefined access; each such spot
  carries a comment naming the C behaviour.
* Helper functions from sipe-utils.c (the nameval list API) are not part of
  the provided source; they are modelled from the spec, see the
  `Modelled from the spec:` doc comments.
-/

namespace SipeMedia

/-! ## GLib-style string primitives

All splitting functions are structurally recursive so that concrete claims
evaluate by `decide`. -/

/-- Split a character list on `\r\n` separators, keeping empty tokens,
mirroring `g_strsplit(frame, "\r\n", 0)` (which never yields fewer than one
token for a nonempty input). -/
def splitCRLFAux : List Char → List Char → List (List Char)
  | [], acc => [acc.reverse]
  | '\r' :: '\n' :: xs, acc => acc.reverse :: splitCRLFAux xs []
  | x :: xs, acc => splitCRLFAux xs (x :: acc)

/-- `g_strsplit(s, "\r\n", 0)`: the empty string yields no tokens. -/
def gStrsplitCRLF (s : String) : List String :=
  if s.data.isEmpty then [] else (splitCRLFAux s.data []).map String.mk

/-- Split on a character predicate with a bounded number of splits
(`fuel` = number of separators still honoured); once the fuel is exhausted,
the remainder (separators included) becomes the final token.  This is the
token semantics of `g_strsplit`/`g_strsplit_set` with a `max_tokens` bound. -/
def gSplitAux (p : Char → Bool) : List Char → Nat → List Char → List (List Char)
  | [], _, acc => [acc.reverse]
  | x :: xs, fuel, acc =>
    if p x then
      match fuel with
      | 0 => [acc.reverse ++ x :: xs]
      | f + 1 => acc.reverse :: gSplitAux p xs f []
    else gSplitAux p xs fuel (x :: acc)

/-- `g_strsplit(s, c, maxTokens)` for a single-character delimiter;
`maxTokens = 0` means unlimited.  The empty string yields no tokens. -/
def gStrsplitChar (s : String) (c : Char) (maxTokens : Nat) : List String :=
  if s.data.isEmpty then []
  else
    (gSplitAux (fun x => x = c) s.data
      (if maxTokens = 0 then s.data.length else maxTokens - 1) []).map String.mk

/-- `g_strsplit_set(s, " /", maxTokens)` as used for `rtpmap` values. -/
def gStrsplitSpaceSlash (s : String) (maxTokens : Nat) : List String :=
  if s.data.isEmpty then []
  else
    (gSplitAux (fun x => x = ' ' || x = '/') s.data
      (if maxTokens = 0 then s.data.length else maxTokens - 1) []).map String.mk

/-- `g_str_has_prefix`. -/
def listIsPrefixOf : List Char → List Char → Bool
  | [], _ => true
  | _ :: _, [] => false
  | p :: ps, x :: xs => p = x && listIsPrefixOf ps xs

def gStrHasPrefix (s p : String) : Bool :=
  listIsPrefixOf p.data s.data

/-- The remainder of a line after its two-character prefix (`*ptr + 2`). -/
def strDrop2 (s : String) : String :=
  String.mk (s.data.drop 2)

/-- Digit run accumulator for `atoi`. -/
def digitsAcc : List Char → Nat → Nat
  | [], acc => acc
  | c :: cs, acc => if c.isDigit then digitsAcc cs (acc * 10 + (c.toNat - 48)) else acc

def isSpaceChar (c : Char) : Bool :=
  c = ' ' || c = '\t' || c = '\n' || c = '\r' || c = '\x0b' || c = '\x0c'

/-- C `atoi`: skip leading whitespace, optional sign, then a digit run. -/
def atoiChars : List Char → Int
  | [] => 0
  | c :: cs =>
    if isSpaceChar c then atoiChars cs
    else if c = '-' then -(Int.ofNat (digitsAcc cs 0))
    else if c = '+' then Int.ofNat (digitsAcc cs 0)
    else Int.ofNat (digitsAcc (c :: cs) 0)

def atoi (s : String) : Int := atoiChars s.data

/-- Cast to `guint16` (assignment of an `int` to a 16-bit unsigned field). -/
def toU16 (i : Int) : Nat := (i % 65536).toNat

/-- Cast to `guint`/`guint32`. -/
def toU32 (i : Int) : Nat := (i % 4294967296).toNat

/-- Character-wise `strcmp`: zero iff the lists are equal, otherwise the
sign of the first difference. -/
def strcmpChars : List Char → List Char → Int
  | [], [] => 0
  | [], _ :: _ => -1
  | _ :: _, [] => 1
  | a :: as, b :: bs =>
    if a = b then strcmpChars as bs
    else if a.toNat < b.toNat then -1 else 1

/-- `g_strcmp0` on non-NULL strings. -/
def g_strcmp0 (a b : String) : Int :=
  strcmpChars a.data b.data

/-! ## Data model (`sipe-media.c` structs and their libpurple payloads) -/

/-- `SipeCallState`. -/
inductive SipeCallState where
  | connecting
  | running
  | held
  | finished
deriving DecidableEq, Repr

/-- `SipeMediaType`. -/
inductive SipeMediaType where
  | audio
  | video
deriving DecidableEq, Repr

/-- `PurpleMediaCodec` as used here: numeric id, encoding name, media kind,
clock rate, optional fmtp parameters. -/
structure Codec where
  id : Nat
  name : String
  mtype : SipeMediaType := .audio
  clock_rate : Nat
  params : List (String × String) := []
deriving DecidableEq, Repr

/-- `PurpleMediaComponentType` restricted to the values produced here. -/
inductive Component where
  | rtp
  | rtcp
  | compNone
deriving DecidableEq, Repr

/-- `PurpleMediaNetworkProtocol` restricted to UDP/TCP. -/
inductive NetProtocol where
  | udp
  | tcp
deriving DecidableEq, Repr

/-- `PurpleMediaCandidateType` restricted to the three accepted values. -/
inductive CandType where
  | host
  | relay
  | srflx
deriving DecidableEq, Repr

/-- `PurpleMediaCandidate` as used here.  `ip`, `username` and `password`
are nullable GLib strings. -/
structure Candidate where
  foundation : String
  component : Component
  protocol : NetProtocol
  priority : Nat := 0
  ip : Option String := none
  port : Nat
  ctype : CandType
  username : Option String := none
  password : Option String := none
deriving DecidableEq, Repr

/-- One entry of the `sdp_attrs` nameval list: the attribute name and the
value token (`parts[1]` of the colon split, `NULL` when the line had no
colon). -/
abbrev SdpAttr := String × Option String

/-- A SIP message, reduced to the parts this module reads: the SDP body and
the `Call-ID` header. -/
structure SipMsg where
  body : String
  callid : String
deriving DecidableEq, Repr

/-- `struct _sipe_media_call`.  The SIP dialog is reduced to its call-id;
`sdp_response` caches the memoized local SDP body (as a list of lines). -/
structure MediaCall where
  callid : String := ""
  remote_ip : Option String := none
  remote_port : Nat := 0
  sdp_attrs : List SdpAttr := []
  invitation : Option SipMsg := none
  remote_candidates : List Candidate := []
  remote_codecs : List Codec := []
  sdp_response : Option (List String) := none
  legacy_mode : Bool := false
  state : SipeCallState := .connecting
deriving DecidableEq, Repr

/-- `struct sipe_account_data`, reduced to the single per-account call slot. -/
structure SipeAccount where
  media_call : Option MediaCall := none
deriving DecidableEq, Repr

/-- The external media-engine/environment state consulted by the module:
local codecs and candidates for the `sipe-voice` session, the locally
determined IP, and the `purple_media_candidates_prepared` /
`purple_media_accepted` flags. -/
structure SipeEnv where
  local_codecs : List Codec := []
  local_candidates : List Candidate := []
  local_ip : String := ""
  prepared : Bool := true
  accepted : Bool := true
deriving DecidableEq, Repr

/-- `PurpleMediaInfoType` restricted to the values handled by
`sipe_media_stream_info_cb`. -/
inductive MediaInfoType where
  | accept
  | reject
  | hold
  | unhold
  | hangup
deriving DecidableEq, Repr

/-- Outward-visible effects: SIP responses/requests and calls into the
media engine. -/
inductive SipAction where
  | response (code : Nat) (reason : String) (body : Option (List String))
  | inviteRequest (renderingHintNo : Bool) (body : Option (List String))
  | byeRequest
  | engineStreamInfo (t : MediaInfoType) (fromLocal : Bool)
  | engineSetRemoteCodecs (cs : List Codec)
  | engineAddRemoteCandidates (cs : List Candidate)
  | engineAddStream (legacy : Bool)
deriving DecidableEq, Repr

/-! ## The nameval attribute list (sipe-utils.c, modelled from the spec) -/

/-- Modelled from the spec: `sipe_utils_nameval_add` of sipe-utils.c (not
under src/).  The attribute set is an ordered multimap; adding appends. -/
def navalAdd (l : List SdpAttr) (n : String) (v : Option String) : List SdpAttr :=
  l ++ [(n, v)]

/-- Modelled from the spec: `sipe_utils_nameval_find` of sipe-utils.c (not
under src/).  Returns the value stored for the first attribute with the
given name (a `NULL` stored value reads back as absent). -/
def navalFind (l : List SdpAttr) (n : String) : Option String :=
  (l.find? (fun p => p.1 = n)).bind (fun p => p.2)

/-- Modelled from the spec: the presence test `"the new attributes contain
an `inactive` marker"` — some attribute with the given name exists. -/
def hasAttr (l : List SdpAttr) (n : String) : Bool :=
  l.any (fun p => p.1 = n)

/-- Modelled from the spec: iterating `sipe_utils_nameval_find_instance`
over the instances of one attribute name yields the stored values in
insertion order. -/
def attrValues (l : List SdpAttr) (n : String) : List String :=
  (l.filter (fun p => p.1 = n)).filterMap (fun p => p.2)

/-! ## SDP Codec — parse (`sipe_media_parse_sdp_frame`) -/

/-- The line loop of `sipe_media_parse_sdp_frame`: dispatch on the
two-character prefix, aborting (`none`) on an `a=` line whose remainder
yields no name token. -/
def parseSdpLines : List String → List SdpAttr → Option String → Nat →
    Option (List SdpAttr × Option String × Nat)
  | [], attrs, rip, rport => some (attrs, rip, rport)
  | l :: rest, attrs, rip, rport =>
    if gStrHasPrefix l "a=" then
      match gStrsplitChar (strDrop2 l) ':' 2 with
      | [] => none
      | [n] => parseSdpLines rest (navalAdd attrs n none) rip rport
      | n :: v :: _ => parseSdpLines rest (navalAdd attrs n (some v)) rip rport
    else if gStrHasPrefix l "o=" then
      -- the C reads parts[5] unconditionally; a short o= line is an
      -- out-of-bounds read, modelled as leaving the ip unchanged
      match (gStrsplitChar (strDrop2 l) ' ' 6).get? 5 with
      | some ip => parseSdpLines rest attrs (some ip) rport
      | none => parseSdpLines rest attrs rip rport
    else if gStrHasPrefix l "m=" then
      -- the C reads parts[1] unconditionally; a short m= line is an
      -- out-of-bounds read, modelled as leaving the port unchanged
      match (gStrsplitChar (strDrop2 l) ' ' 3).get? 1 with
      | some p => parseSdpLines rest attrs rip (toU16 (atoi p))
      | none => parseSdpLines rest attrs rip rport
    else parseSdpLines rest attrs rip rport

/-- `sipe_media_parse_sdp_frame`, pure part: the parsed attribute list,
remote ip and remote port, or `none` on the hard parse failure. -/
def sipe_media_parse_sdp_frame (frame : String) :
    Option (List SdpAttr × Option String × Nat) :=
  parseSdpLines (gStrsplitCRLF frame) [] none 0

/-- The state update of `sipe_media_parse_sdp_frame` on its call argument:
on success all three fields are replaced; on failure (`none`) the call is
untouched and the caller sees `FALSE`. -/
def parseSdpInto (call : MediaCall) (frame : String) : Option MediaCall :=
  (sipe_media_parse_sdp_frame frame).map
    (fun t => { call with sdp_attrs := t.1, remote_ip := t.2.1, remote_port := t.2.2 })

/-! ## Codec negotiator -/

/-- One `rtpmap` value parsed by `sipe_media_parse_remote_codecs`.  The C
indexes `tokens[0..2]` without a bounds check; missing tokens (undefined in
the source) are modelled as empty strings. -/
def parseRtpmapValue (attr : String) : Codec :=
  let tokens := gStrsplitSpaceSlash attr 3
  { id := toU32 (atoi (tokens.getD 0 "")),
    name := tokens.getD 1 "",
    mtype := .audio,
    clock_rate := toU32 (atoi (tokens.getD 2 "")) }

/-- `sipe_media_parse_remote_codecs`: one codec per `rtpmap` instance, in
appearance order. -/
def sipe_media_parse_remote_codecs (attrs : List SdpAttr) : List Codec :=
  (attrValues attrs "rtpmap").map parseRtpmapValue

/-- `codec_name_compare`: compare two codecs by encoding name. -/
def codec_name_compare (c1 c2 : Codec) : Int :=
  g_strcmp0 c1.name c2.name

/-- `g_list_find_custom`: first element on which the comparator returns 0. -/
def g_list_find_custom {α : Type} (l : List α) (x : α) (cmp : α → α → Int) : Option α :=
  l.find? (fun e => cmp e x = 0)

/-- `sipe_media_prune_remote_codecs`: walk the remote list in order, keeping
each codec whose name matches some local codec. -/
def sipe_media_prune_remote_codecs (local_codecs : List Codec) : List Codec → List Codec
  | [] => []
  | c :: rest =>
    if (g_list_find_custom local_codecs c codec_name_compare).isSome then
      c :: sipe_media_prune_remote_codecs local_codecs rest
    else
      sipe_media_prune_remote_codecs local_codecs rest

/-! ## Candidate resolver (`sipe_media_parse_remote_candidates`) -/

/-- One `candidate` attribute value, tokenized on spaces into 8 positional
fields.  The C indexes `tokens[0..7]` without a bounds check; a line with
fewer tokens is an out-of-bounds read in the source, modelled as skipping
the entry (spec §7's "skip this one entry" policy). -/
def parseCandidateLine (attr : String) : Option Candidate :=
  let tokens := gStrsplitChar attr ' ' 0
  if tokens.length < 8 then none
  else
    let component :=
      match atoi (tokens.getD 1 "") with
      | 1 => Component.rtp
      | 2 => Component.rtcp
      | _ => Component.compNone
    if tokens.getD 2 "" = "UDP" then
      match tokens.getD 7 "" with
      | "host" =>
        some { foundation := tokens.getD 0 "", component := component,
               protocol := .udp, priority := toU32 (atoi (tokens.getD 3 "")),
               ip := some (tokens.getD 4 ""), port := toU16 (atoi (tokens.getD 5 "")),
               ctype := .host }
      | "relay" =>
        some { foundation := tokens.getD 0 "", component := component,
               protocol := .udp, priority := toU32 (atoi (tokens.getD 3 "")),
               ip := some (tokens.getD 4 ""), port := toU16 (atoi (tokens.getD 5 "")),
               ctype := .relay }
      | "srflx" =>
        some { foundation := tokens.getD 0 "", component := component,
               protocol := .udp, priority := toU32 (atoi (tokens.getD 3 "")),
               ip := some (tokens.getD 4 ""), port := toU16 (atoi (tokens.getD 5 "")),
               ctype := .srflx }
      | _ => none
    else none

/-- `sipe_media_parse_remote_candidates`, as a function of the call fields
it reads.  Returns the candidate list and the `legacy_mode` value the C
writes into the call (`true` exactly when no candidate line was accepted
and the OC2005 pair was synthesized). -/
def sipe_media_parse_remote_candidates (attrs : List SdpAttr)
    (remote_ip : Option String) (remote_port : Nat) : List Candidate × Bool :=
  let username := navalFind attrs "ice-ufrag"
  let password := navalFind attrs "ice-pwd"
  let parsed := (attrValues attrs "candidate").filterMap parseCandidateLine
  let pair :=
    if parsed = [] then
      ([ { foundation := "foundation", component := Component.rtp,
           protocol := NetProtocol.udp, ip := remote_ip, port := remote_port,
           ctype := CandType.host },
         { foundation := "foundation", component := Component.rtcp,
           protocol := NetProtocol.udp, ip := remote_ip, port := remote_port + 1,
           ctype := CandType.host } ], true)
    else (parsed, false)
  (if username.isSome then
     pair.1.map (fun c => { c with username := username, password := password })
   else pair.1, pair.2)

/-! ## SDP Codec — format

The generated SDP body is modelled as its list of `\r\n`-terminated lines,
each line built exactly after the `g_strdup_printf` format strings.  Every
parameterized line is written `literalHead ++ rest` so that prefix
reasoning is uniform. -/

/-- `sipe_media_sdp_codec_ids_format`: `" %d"` per codec. -/
def sipe_media_sdp_codec_ids_format (codecs : List Codec) : String :=
  String.join (codecs.map (fun c => " " ++ Nat.repr c.id))

/-- The `" %s=%s"` fmtp parameter list. -/
def fmtpParamsFormat (params : List (String × String)) : String :=
  String.join (params.map (fun p => " " ++ p.1 ++ "=" ++ p.2))

/-- The lines one codec contributes: its `a=rtpmap:` line, plus an
`a=fmtp:` line when it has optional parameters. -/
def codecLines (c : Codec) : List String :=
  ("a=rtpmap:" ++ (Nat.repr c.id ++ " " ++ c.name ++ "/" ++ Nat.repr c.clock_rate)) ::
    (if c.params.isEmpty then []
     else ["a=fmtp:" ++ (Nat.repr c.id ++ fmtpParamsFormat c.params)])

/-- `sipe_media_sdp_codecs_format`. -/
def sipe_media_sdp_codecs_format (codecs : List Codec) : List String :=
  codecs.flatMap codecLines

/-- The `%u` component number of a candidate.  The C switch has no branch
for `PURPLE_MEDIA_COMPONENT_NONE`, leaving the variable uninitialized
(undefined); `0` stands for that unspecified value. -/
def componentNumber : Component → Nat
  | .rtp => 1
  | .rtcp => 2
  | .compNone => 0

def protocolName : NetProtocol → String
  | .tcp => "TCP"
  | .udp => "UDP"

def candTypeName : CandType → String
  | .host => "host"
  | .relay => "relay"
  | .srflx => "srflx"

/-- A nullable GLib string under `%s` (glibc prints `(null)`). -/
def printfStr (s : Option String) : String := s.getD "(null)"

/-- One `a=candidate:%s %u %s %u %s %d typ %s \r\n` line (the source format
ends with a space before the line break). -/
def candidateLine (c : Candidate) : String :=
  "a=candidate:" ++
    (c.foundation ++ " " ++ Nat.repr (componentNumber c.component) ++ " " ++
     protocolName c.protocol ++ " " ++ Nat.repr c.priority ++ " " ++
     printfStr c.ip ++ " " ++ Nat.repr c.port ++ " typ " ++ candTypeName c.ctype ++ " ")

/-- The `rtcp_port` accumulation of the candidate loop: the first RTCP
candidate's port wins while the accumulator is still 0. -/
def rtcpPortAux : List Candidate → Nat → Nat
  | [], acc => acc
  | c :: rest, acc =>
    rtcpPortAux rest (if c.component = Component.rtcp ∧ acc = 0 then c.port else acc)

/-- `sipe_media_sdp_candidates_format`.  `none` marks the two undefined
accesses of the source: reading `candidates->data` off an empty list, and
dereferencing `call->remote_candidates->next` when fewer than two remote
candidates exist while `remote_candidate` is set. -/
def sipe_media_sdp_candidates_format (candidates : List Candidate)
    (call : MediaCall) (remote_candidate : Bool) : Option (List String) :=
  match candidates with
  | [] => none
  | c0 :: _ =>
    if call.legacy_mode then some []
    else
      let credLines := ["a=ice-ufrag:" ++ printfStr c0.username,
                        "a=ice-pwd:" ++ printfStr c0.password]
      let candLines := candidates.map candidateLine
      let rcLines : Option (List String) :=
        if remote_candidate then
          match call.remote_candidates with
          | f :: s :: _ =>
            some ["a=remote-candidates:" ++
              ("1 " ++ printfStr f.ip ++ " " ++ Nat.repr f.port ++ " 2 " ++
               printfStr s.ip ++ " " ++ Nat.repr s.port)]
          | _ => none
        else some []
      match rcLines with
      | none => none
      | some rc =>
        let rtcp_port := rtcpPortAux candidates 0
        some (credLines ++ candLines ++ rc ++
          (if rtcp_port ≠ 0 then ["a=maxptime:200", "a=rtcp:" ++ Nat.repr rtcp_port]
           else []))

/-- `sipe_media_create_sdp`.  `none` marks the undefined access of reading
`local_candidates->data` off an empty engine candidate list, or a failure
inside the candidates formatter. -/
def sipe_media_create_sdp (env : SipeEnv) (call : MediaCall)
    (remote_candidate : Bool) : Option (List String) :=
  match env.local_candidates with
  | [] => none
  | lc0 :: _ =>
    match sipe_media_sdp_candidates_format env.local_candidates call remote_candidate with
    | none => none
    | some candLines =>
      some (["v=0",
             "o=- 0 0 IN IP4 " ++ env.local_ip,
             "s=session",
             "c=IN IP4 " ++ env.local_ip,
             "b=CT:99980",
             "t=0 0",
             "m=audio " ++ (Nat.repr lc0.port ++ " RTP/AVP" ++
               sipe_media_sdp_codec_ids_format env.local_codecs)] ++
            candLines ++
            (if call.state = SipeCallState.held then ["a=inactive"] else []) ++
            sipe_media_sdp_codecs_format env.local_codecs ++
            ["a=encryption:rejected"])

/-! ## Call state machine -/

/-- `sipe_invite_call`: a full re-INVITE carrying the current SDP; the
`Contact` header gets the `;+sip.rendering="no"` hint when the call is
held. -/
def sipe_invite_call (env : SipeEnv) (call : MediaCall) : List SipAction :=
  [SipAction.inviteRequest (call.state = SipeCallState.held)
    (sipe_media_create_sdp env call true)]

/-- `notify_state_change`: local changes re-INVITE, remote changes answer
200 OK, both with updated SDP. -/
def notify_state_change (env : SipeEnv) (call : MediaCall) (fromLocal : Bool) :
    List SipAction :=
  if fromLocal then sipe_invite_call env call
  else [SipAction.response 200 "OK" (sipe_media_create_sdp env call true)]

/-- `sipe_media_session_ready_cb`: once candidates are prepared, memoize
the local SDP and answer 183 (non-legacy, not yet accepted) or 200 OK
(accepted, moving to Running). -/
def sipe_media_session_ready_cb (env : SipeEnv) (call : MediaCall) :
    MediaCall × List SipAction :=
  if ¬ env.prepared then (call, [])
  else
    let call1 :=
      if call.sdp_response.isNone then
        { call with sdp_response := sipe_media_create_sdp env call false }
      else call
    if ¬ env.accepted then
      if ¬ call1.legacy_mode then
        (call1, [SipAction.response 183 "Session Progress" call1.sdp_response])
      else (call1, [])
    else
      ({ call1 with state := SipeCallState.running },
       [SipAction.response 200 "OK" call1.sdp_response])

/-- `sipe_media_stream_info_cb`: the media-engine event dispatcher.  A
`none` call slot would be a NULL dereference in the source; it is modelled
as a no-op (unreachable in the modelled flows, which only connect the
callback after a call exists). -/
def sipe_media_stream_info_cb (env : SipeEnv) (sip : SipeAccount)
    (t : MediaInfoType) (fromLocal : Bool) : SipeAccount × List SipAction :=
  match sip.media_call with
  | none => (sip, [])
  | some call =>
    match t with
    | .accept =>
      let r := sipe_media_session_ready_cb env call
      ({ media_call := some r.1 }, r.2)
    | .reject =>
      ({ media_call := none }, [SipAction.response 603 "Decline" none])
    | .hold =>
      if call.state = SipeCallState.held then (sip, [])
      else
        let call1 := { call with state := SipeCallState.held }
        ({ media_call := some call1 },
         notify_state_change env call1 fromLocal ++
           [SipAction.engineStreamInfo .hold true])
    | .unhold =>
      if call.state = SipeCallState.running then (sip, [])
      else
        let call1 := { call with state := SipeCallState.running }
        ({ media_call := some call1 },
         notify_state_change env call1 fromLocal ++
           [SipAction.engineStreamInfo .unhold true])
    | .hangup =>
      ({ media_call := none },
       if fromLocal then [SipAction.byeRequest] else [])

/-- `sipe_media_hold`: ask the engine to hold (it will re-enter the
dispatcher with a non-local HOLD). -/
def sipe_media_hold (sip : SipeAccount) : List SipAction :=
  match sip.media_call with
  | some _ => [SipAction.engineStreamInfo .hold false]
  | none => []

/-- `sipe_media_unhold`. -/
def sipe_media_unhold (sip : SipeAccount) : List SipAction :=
  match sip.media_call with
  | some _ => [SipAction.engineStreamInfo .unhold false]
  | none => []

/-- `sipe_media_hangup`. -/
def sipe_media_hangup (sip : SipeAccount) : List SipAction :=
  match sip.media_call with
  | some _ => [SipAction.engineStreamInfo .hangup false]
  | none => []

/-- `sipe_media_call_init`: allocate a zeroed call, parse the INVITE body
into it (freeing the call and returning NULL on parse failure), then
resolve the remote candidates, latching `legacy_mode` when the OC2005 pair
was synthesized. -/
def sipe_media_call_init (msg : SipMsg) : Option MediaCall :=
  match parseSdpInto {} msg.body with
  | none => none
  | some c0 =>
    let c1 := { c0 with invitation := some msg, legacy_mode := false,
                        state := SipeCallState.connecting }
    let r := sipe_media_parse_remote_candidates c1.sdp_attrs c1.remote_ip c1.remote_port
    some { c1 with remote_candidates := r.1, legacy_mode := r.2 }

/-- `sipe_media_incoming_invite`.

With an active call and a matching call-id this is the re-INVITE path: the
prior attribute list is freed and reset to NULL before re-parsing (a parse
failure is ignored — the source comment reads `TODO: handle error`), then
exactly one of remote-hold / remote-hold-on-inactive / remote-unhold /
renegotiate runs.  With a different call-id the source only logs
`MEDIA SESSION ALREADY IN PROGRESS` (`TODO: send Busy Here`) and returns
without sending anything.  With no active call a new call is initialized,
rejected silently when no remote candidates or codecs survive, and
otherwise installed and answered 180 Ringing. -/
def sipe_media_incoming_invite (env : SipeEnv) (sip : SipeAccount)
    (msg : SipMsg) : SipeAccount × List SipAction :=
  match sip.media_call with
  | some call =>
    if call.callid = msg.callid then
      let call1 := { call with invitation := some msg, sdp_attrs := [] }
      let call2 :=
        match parseSdpInto call1 msg.body with
        | some c => c
        | none => call1
      if call2.legacy_mode ∧ call2.state = SipeCallState.running then
        ({ media_call := some call2 }, [SipAction.engineStreamInfo .hold false])
      else if hasAttr call2.sdp_attrs "inactive" then
        ({ media_call := some call2 }, [SipAction.engineStreamInfo .hold false])
      else if call2.state = SipeCallState.held then
        ({ media_call := some call2 }, [SipAction.engineStreamInfo .unhold false])
      else
        let pruned := sipe_media_prune_remote_codecs env.local_codecs
          (sipe_media_parse_remote_codecs call2.sdp_attrs)
        let call3 := { call2 with remote_codecs := pruned }
        ({ media_call := some call3 },
         [SipAction.engineSetRemoteCodecs pruned,
          SipAction.response 200 "OK" (sipe_media_create_sdp env call3 true)])
    else
      (sip, [])
  | none =>
    match sipe_media_call_init msg with
    | none => (sip, [])
    | some call0 =>
      let call1 := { call0 with callid := msg.callid }
      let pruned := sipe_media_prune_remote_codecs env.local_codecs
        (sipe_media_parse_remote_codecs call1.sdp_attrs)
      let call2 := { call1 with remote_codecs := pruned }
      if call2.remote_candidates = [] ∨ call2.remote_codecs = [] then
        ({ media_call := none },
         [SipAction.engineAddStream call1.legacy_mode,
          SipAction.engineAddRemoteCandidates call1.remote_candidates])
      else
        ({ media_call := some call2 },
         [SipAction.engineAddStream call2.legacy_mode,
          SipAction.engineAddRemoteCandidates call2.remote_candidates,
          SipAction.engineSetRemoteCodecs pruned,
          SipAction.response 180 "Ringing" none])

/-! ## Event layer -/

/-- An event delivered to one account's call machinery: an inbound INVITE,
a media-engine stream-info callback, the candidates-prepared callback, or
a local UI action. -/
inductive SipeEvent where
  | invite (msg : SipMsg)
  | mediaInfo (t : MediaInfoType) (fromLocal : Bool)
  | sessionReady
  | uiHold
  | uiUnhold
  | uiHangup
deriving DecidableEq, Repr

/-- One event step. -/
def stepEvent (env : SipeEnv) (sip : SipeAccount) : SipeEvent → SipeAccount × List SipAction
  | .invite msg => sipe_media_incoming_invite env sip msg
  | .mediaInfo t l => sipe_media_stream_info_cb env sip t l
  | .sessionReady =>
    match sip.media_call with
    | none => (sip, [])
    | some call =>
      let r := sipe_media_session_ready_cb env call
      ({ media_call := some r.1 }, r.2)
  | .uiHold => (sip, sipe_media_hold sip)
  | .uiUnhold => (sip, sipe_media_unhold sip)
  | .uiHangup => (sip, sipe_media_hangup sip)

/-- Run a sequence of events, discarding the emitted actions. -/
def runEvents (env : SipeEnv) (sip : SipeAccount) : List SipeEvent → SipeAccount
  | [] => sip
  | e :: rest => runEvents env (stepEvent env sip e).1 rest

/-! ## The C5 claim's negotiation, written from the spec's words

C5 states the output preserves "the local list's ordering and the local
numeric codec identifiers"; this refinement candidate keeps, in local
order, each local codec (with its local id) whose name some remote codec
offers.  It is compared against `sipe_media_prune_remote_codecs`. -/

def prune_codecs_local_spec (local_codecs remote_codecs : List Codec) : List Codec :=
  local_codecs.filter (fun l => decide (∃ r ∈ remote_codecs, r.name = l.name))

/-! ## Helper lemmas -/

theorem strcmpChars_eq_zero (as bs : List Char) :
    strcmpChars as bs = 0 ↔ as = bs := by
  induction as generalizing bs with
  | nil => cases bs <;> simp [strcmpChars]
  | cons a as ih =>
    cases bs with
    | nil => simp [strcmpChars]
    | cons b bs =>
      by_cases hab : a = b
      · subst hab
        simp [strcmpChars, ih]
      · simp only [strcmpChars, if_neg hab]
        constructor
        · intro h
          by_cases hlt : a.toNat < b.toNat <;> simp [hlt] at h
        · intro h
          exact absurd (List.head_eq_of_cons_eq h) hab

theorem g_strcmp0_eq_zero (a b : String) : g_strcmp0 a b = 0 ↔ a = b := by
  unfold g_strcmp0
  rw [strcmpChars_eq_zero]
  constructor
  · intro h
    cases a
    cases b
    exact congrArg String.mk h
  · intro h
    rw [h]

theorem find_custom_isSome (lc : List Codec) (c : Codec) :
    (g_list_find_custom lc c codec_name_compare).isSome
      = decide (∃ l ∈ lc, l.name = c.name) := by
  unfold g_list_find_custom
  rw [Bool.eq_iff_iff, List.find?_isSome, decide_eq_true_eq]
  constructor
  · rintro ⟨x, hmem, hp⟩
    exact ⟨x, hmem, (g_strcmp0_eq_zero x.name c.name).mp (by simpa using hp)⟩
  · rintro ⟨l, hmem, hname⟩
    exact ⟨l, hmem, by simpa using (g_strcmp0_eq_zero l.name c.name).mpr hname⟩

theorem prune_eq_filter (lc rc : List Codec) :
    sipe_media_prune_remote_codecs lc rc
      = rc.filter (fun c => decide (∃ l ∈ lc, l.name = c.name)) := by
  induction rc with
  | nil => rfl
  | cons c rest ih =>
    simp only [sipe_media_prune_remote_codecs, find_custom_isSome, List.filter_cons, ih]

/-! ## Concrete fixtures used by several claims -/

/-- A local PCMU codec as supplied by the media engine. -/
def pcmuCodec : Codec := { id := 0, name := "PCMU", clock_rate := 8000 }

/-- Local RTP candidate of the engine's `sipe-voice` session. -/
def localRtpCand : Candidate :=
  { foundation := "1", component := .rtp, protocol := .udp, priority := 1,
    ip := some "192.168.1.2", port := 16384, ctype := .host,
    username := some "uloc", password := some "ploc" }

/-- Local RTCP candidate of the engine's `sipe-voice` session. -/
def localRtcpCand : Candidate :=
  { foundation := "1", component := .rtcp, protocol := .udp, priority := 1,
    ip := some "192.168.1.2", port := 16385, ctype := .host,
    username := some "uloc", password := some "ploc" }

/-- A concrete environment: one local codec, an RTP+RTCP local candidate
pair, candidates prepared and the call accepted. -/
def testEnv : SipeEnv :=
  { local_codecs := [pcmuCodec],
    local_candidates := [localRtpCand, localRtcpCand],
    local_ip := "192.168.1.2" }

/-- The §8 example offer: no `a=candidate` lines. -/
def legacyOfferBody : String :=
  "v=0\r\no=- 0 0 IN IP4 10.0.0.5\r\ns=session\r\nc=IN IP4 10.0.0.5\r\nm=audio 5004 RTP/AVP 0\r\na=rtpmap:0 PCMU/8000\r\n"

/-- An offer carrying exactly one acceptable (UDP host) candidate. -/
def oneCandOfferBody : String :=
  "v=0\r\no=- 0 0 IN IP4 10.0.0.5\r\nm=audio 5004 RTP/AVP 0\r\na=rtpmap:0 PCMU/8000\r\na=candidate:1 1 UDP 2130706431 10.0.0.5 5004 typ host\r\na=ice-ufrag:ab\r\na=ice-pwd:cd\r\n"

/-- A running, non-legacy call with negotiated state, as it stands after a
two-candidate ICE offer was answered and accepted. -/
def runningCall : MediaCall :=
  { callid := "cid1",
    remote_ip := some "10.0.0.5",
    remote_port := 5004,
    sdp_attrs := [("rtpmap", some "0 PCMU/8000")],
    invitation := some { body := legacyOfferBody, callid := "cid1" },
    remote_candidates :=
      [ { foundation := "1", component := .rtp, protocol := .udp,
          priority := 2130706431, ip := some "10.0.0.5", port := 5004,
          ctype := .host, username := some "ab", password := some "cd" },
        { foundation := "1", component := .rtcp, protocol := .udp,
          priority := 2130706430, ip := some "10.0.0.5", port := 5005,
          ctype := .host, username := some "ab", password := some "cd" } ],
    remote_codecs := [{ id := 0, name := "PCMU", clock_rate := 8000 }],
    sdp_response := none,
    legacy_mode := false,
    state := .running }

/-! ## Prefix reasoning on formatted lines -/

theorem strAppend_data (a b : String) : (a ++ b).data = a.data ++ b.data := rfl

/-- A string starting with a literal head differing from `t` on the head's
length cannot equal `t`, whatever follows. -/
theorem append_ne_of_ne_take (p t : String)
    (h : p.data ≠ t.data.take p.data.length) : ∀ s, p ++ s ≠ t := by
  intro s he
  apply h
  have hd : p.data ++ s.data = t.data := by rw [← strAppend_data, he]
  rw [← hd, List.take_left]

/-- `a=inactive` is not of the form `head ++ rest` for any of the
formatter heads; stated with the equality oriented as `List.mem_cons`
produces it. -/
theorem not_inactive_head (p : String)
    (h : p.data ≠ ("a=inactive" : String).data.take p.data.length) (s : String) :
    "a=inactive" ≠ p ++ s :=
  fun he => append_ne_of_ne_take p "a=inactive" h s he.symm

/-- No `a=candidate:` line is `a=inactive`. -/
theorem inactive_not_mem_cand_lines (cs : List Candidate) :
    "a=inactive" ∉ cs.map candidateLine := by
  intro hmem
  rcases List.mem_map.mp hmem with ⟨c, _, hc⟩
  exact not_inactive_head "a=candidate:" (by decide) _ hc.symm

/-- No line of the optional `a=maxptime`/`a=rtcp` tail is `a=inactive`. -/
theorem inactive_not_mem_tail (cond : Prop) [Decidable cond] (n : String) :
    "a=inactive" ∉ (if cond then ["a=maxptime:200", "a=rtcp:" ++ n] else []) := by
  split
  · intro hmem
    rcases List.mem_cons.mp hmem with h1 | h1
    · exact absurd h1 (by decide)
    · rcases List.mem_singleton.mp h1 with h2
      exact not_inactive_head "a=rtcp:" (by decide) _ h2
  · exact List.not_mem_nil _

/-- No line emitted by the candidates formatter is `a=inactive`. -/
theorem inactive_not_mem_candidates_format (cands : List Candidate)
    (call : MediaCall) (rc : Bool) (lines : List String)
    (h : sipe_media_sdp_candidates_format cands call rc = some lines) :
    "a=inactive" ∉ lines := by
  cases cands with
  | nil => simp [sipe_media_sdp_candidates_format] at h
  | cons c0 rest =>
    simp only [sipe_media_sdp_candidates_format] at h
    cases hleg : call.legacy_mode with
    | true =>
      rw [hleg] at h
      simp only [if_true] at h
      cases h
      exact List.not_mem_nil _
    | false =>
      rw [hleg] at h
      simp only [Bool.false_eq_true, if_false] at h
      have hassemble : ∀ (rcl : List String), "a=inactive" ∉ rcl →
          "a=inactive" ∉
            (["a=ice-ufrag:" ++ printfStr c0.username,
              "a=ice-pwd:" ++ printfStr c0.password] ++
             (c0 :: rest).map candidateLine ++ rcl ++
             (if rtcpPortAux (c0 :: rest) 0 ≠ 0 then
                ["a=maxptime:200", "a=rtcp:" ++ Nat.repr (rtcpPortAux (c0 :: rest) 0)]
              else [])) := by
        intro rcl hrcl hmem
        rcases List.mem_append.mp hmem with h1 | h1
        · rcases List.mem_append.mp h1 with h2 | h2
          · rcases List.mem_append.mp h2 with h3 | h3
            · rcases List.mem_cons.mp h3 with h4 | h4
              · exact not_inactive_head "a=ice-ufrag:" (by decide) _ h4
              · rcases List.mem_singleton.mp h4 with h5
                exact not_inactive_head "a=ice-pwd:" (by decide) _ h5
            · exact inactive_not_mem_cand_lines (c0 :: rest) h3
          · exact hrcl h2
        · exact inactive_not_mem_tail _ _ h1
      cases rc with
      | false =>
        simp only [Bool.false_eq_true, if_false] at h
        cases h
        exact hassemble [] (List.not_mem_nil _)
      | true =>
        simp only [if_true] at h
        cases hrcands : call.remote_candidates with
        | nil =>
          rw [hrcands] at h
          cases h
        | cons f rest2 =>
          cases rest2 with
          | nil =>
            rw [hrcands] at h
            cases h
          | cons s rest3 =>
            rw [hrcands] at h
            cases h
            refine hassemble _ ?_
            intro hmem
            rcases List.mem_singleton.mp hmem with h2
            exact not_inactive_head "a=remote-candidates:" (by decide) _ h2

/-- No codec line is `a=inactive`. -/
theorem inactive_not_mem_codecs_format (codecs : List Codec) :
    "a=inactive" ∉ sipe_media_sdp_codecs_format codecs := by
  intro hmem
  unfold sipe_media_sdp_codecs_format at hmem
  rcases List.mem_flatMap.mp hmem with ⟨c, _, hmk⟩
  unfold codecLines at hmk
  rcases List.mem_cons.mp hmk with h1 | h1
  · exact not_inactive_head "a=rtpmap:" (by decide) _ h1
  · revert h1
    split
    · exact List.not_mem_nil _
    · intro h1
      rcases List.mem_singleton.mp h1 with h2
      exact not_inactive_head "a=fmtp:" (by decide) _ h2

/-- The generated SDP body contains `a=inactive` exactly when the call is
held. -/
theorem create_sdp_inactive_iff (env : SipeEnv) (call : MediaCall) (rc : Bool)
    (lines : List String) (h : sipe_media_create_sdp env call rc = some lines) :
    ("a=inactive" ∈ lines ↔ call.state = SipeCallState.held) := by
  cases hlc : env.local_candidates with
  | nil =>
    unfold sipe_media_create_sdp at h
    rw [hlc] at h
    cases h
  | cons lc0 lcr =>
    unfold sipe_media_create_sdp at h
    rw [hlc] at h
    cases hfmt : sipe_media_sdp_candidates_format (lc0 :: lcr) call rc with
    | none =>
      rw [hfmt] at h
      cases h
    | some candLines =>
      rw [hfmt] at h
      cases h
      have hcand : "a=inactive" ∉ candLines :=
        inactive_not_mem_candidates_format _ _ _ _ hfmt
      have hcodec := inactive_not_mem_codecs_format env.local_codecs
      constructor
      · intro hmem
        rcases List.mem_append.mp hmem with h1 | h1
        · rcases List.mem_append.mp h1 with h2 | h2
          · rcases List.mem_append.mp h2 with h3 | h3
            · rcases List.mem_append.mp h3 with h4 | h4
              · -- the seven fixed lines
                rcases List.mem_cons.mp h4 with h5 | h5
                · exact absurd h5 (by decide)
                rcases List.mem_cons.mp h5 with h5 | h5
                · exact absurd h5 (not_inactive_head "o=- 0 0 IN IP4 " (by decide) _)
                rcases List.mem_cons.mp h5 with h5 | h5
                · exact absurd h5 (by decide)
                rcases List.mem_cons.mp h5 with h5 | h5
                · exact absurd h5 (not_inactive_head "c=IN IP4 " (by decide) _)
                rcases List.mem_cons.mp h5 with h5 | h5
                · exact absurd h5 (by decide)
                rcases List.mem_cons.mp h5 with h5 | h5
                · exact absurd h5 (by decide)
                rcases List.mem_singleton.mp h5 with h6
                exact absurd h6 (not_inactive_head "m=audio " (by decide) _)
              · exact absurd h4 hcand
            · -- the optional a=inactive line
              revert h3
              split
              · rename_i hheld
                intro _
                exact hheld
              · exact fun hx => absurd hx (List.not_mem_nil _)
          · exact absurd h2 hcodec
        · exact absurd (List.mem_singleton.mp h1) (by decide)
      · intro hheld
        refine List.mem_append.mpr (Or.inl ?_)
        refine List.mem_append.mpr (Or.inl ?_)
        refine List.mem_append.mpr (Or.inr ?_)
        rw [if_pos hheld]
        exact List.mem_singleton.mpr rfl

/-! ## Claim theorems -/

/-- Hitting a bare `a=` line anywhere in the line list aborts the parse. -/
theorem parseSdpLines_abort (lines : List String) :
    ∀ attrs rip rport, "a=" ∈ lines → parseSdpLines lines attrs rip rport = none := by
  induction lines with
  | nil =>
    intro _ _ _ h
    cases h
  | cons l rest ih =>
    intro attrs rip rport h
    rcases List.mem_cons.mp h with hl | hrest
    · subst hl
      rfl
    · simp only [parseSdpLines]
      split
      · split
        · rfl
        · exact ih _ _ _ hrest
        · exact ih _ _ _ hrest
      · split
        · split
          · exact ih _ _ _ hrest
          · exact ih _ _ _ hrest
        · split
          · split
            · exact ih _ _ _ hrest
            · exact ih _ _ _ hrest
          · exact ih _ _ _ hrest

/-- C1: a bare `a=` line is a hard parse failure — `sipe_media_parse_sdp_frame`
aborts, installs nothing and reports the error to its caller (first
conjunct, for every body containing such a line).  But in the re-INVITE
path the claim fails: `sipe_media_incoming_invite` frees the Call's prior
`sdp_attrs` (resetting them to NULL) before re-parsing and ignores the
parse failure (`TODO: handle error`), so the prior attribute set is lost
and a 200 OK renegotiation answer is still sent (second conjunct,
evaluating the code at the failing input). -/
theorem claim_C1_parse_aborts_but_reinvite_wipes_attrs :
    (∀ (frame : String) (call : MediaCall),
       "a=" ∈ gStrsplitCRLF frame →
       sipe_media_parse_sdp_frame frame = none ∧ parseSdpInto call frame = none)
    ∧ (runningCall.sdp_attrs ≠ []
       ∧ (sipe_media_incoming_invite testEnv { media_call := some runningCall }
            { body := "a=", callid := "cid1" }).1.media_call.map MediaCall.sdp_attrs
          = some []
       ∧ ∃ b, (sipe_media_incoming_invite testEnv { media_call := some runningCall }
                 { body := "a=", callid := "cid1" }).2
              = [SipAction.engineSetRemoteCodecs [], SipAction.response 200 "OK" b]) := by
  constructor
  · intro frame call h
    have habort := parseSdpLines_abort (gStrsplitCRLF frame) [] none 0 h
    constructor
    · exact habort
    · unfold parseSdpInto sipe_media_parse_sdp_frame
      rw [habort]
      rfl
  · exact ⟨by decide, by decide, ⟨_, rfl⟩⟩

/-- Witness for C1 at a concrete bad frame. -/
theorem claim_C1_witness :
    sipe_media_parse_sdp_frame "o=- 0 0 IN IP4 10.0.0.5\r\na=" = none
    ∧ parseSdpInto runningCall "o=- 0 0 IN IP4 10.0.0.5\r\na=" = none :=
  claim_C1_parse_aborts_but_reinvite_wipes_attrs.1
    "o=- 0 0 IN IP4 10.0.0.5\r\na=" runningCall (by decide)

/-- C8: an inbound INVITE whose call-id differs from the active Call's is
handled without mutating any field of the active Call — but no busy-style
response (nor any other action) is emitted: the source only logs
`MEDIA SESSION ALREADY IN PROGRESS` at a `TODO: send Busy Here` comment. -/
theorem claim_C8_collision_no_response_no_mutation :
    sipe_media_incoming_invite testEnv { media_call := some runningCall }
      { body := legacyOfferBody, callid := "cid2" }
    = ({ media_call := some runningCall }, []) := by
  rfl

/-- C4: for every local and remote codec list, codec negotiation
(`sipe_media_prune_remote_codecs`) returns, in remote-offer order, exactly
those remote codecs whose encoding name exactly (case-sensitively) matches
the encoding name of some local codec, dropping all others; in particular
local = [PCMU, G722] and remote = [G722, PCMU, SPEEX] yields [G722, PCMU]
in that order. -/
theorem claim_C4_prune_keeps_remote_matches :
    (∀ (lc rc : List Codec),
      sipe_media_prune_remote_codecs lc rc
        = rc.filter (fun c => decide (∃ l ∈ lc, l.name = c.name)))
    ∧ sipe_media_prune_remote_codecs
        [{ id := 0, name := "PCMU", clock_rate := 8000 },
         { id := 9, name := "G722", clock_rate := 8000 }]
        [{ id := 9, name := "G722", clock_rate := 8000 },
         { id := 0, name := "PCMU", clock_rate := 8000 },
         { id := 97, name := "SPEEX", clock_rate := 16000 }]
      = [{ id := 9, name := "G722", clock_rate := 8000 },
         { id := 0, name := "PCMU", clock_rate := 8000 }] := by
  refine ⟨prune_eq_filter, ?_⟩
  decide

/-- C5, counterexample: codec negotiation does not preserve the local
list's ordering nor the local numeric identifiers.  With local
[PCMU(id 0), G722(id 9)] and remote [G722(id 3), PCMU(id 8)], the output is
the remote codecs in remote order with remote ids [3, 8] — not the
spec-described local-preserving intersection. -/
theorem claim_C5_counterexample :
    sipe_media_prune_remote_codecs
        [{ id := 0, name := "PCMU", clock_rate := 8000 },
         { id := 9, name := "G722", clock_rate := 8000 }]
        [{ id := 3, name := "G722", clock_rate := 8000 },
         { id := 8, name := "PCMU", clock_rate := 8000 }]
      = [{ id := 3, name := "G722", clock_rate := 8000 },
         { id := 8, name := "PCMU", clock_rate := 8000 }]
    ∧ prune_codecs_local_spec
        [{ id := 0, name := "PCMU", clock_rate := 8000 },
         { id := 9, name := "G722", clock_rate := 8000 }]
        [{ id := 3, name := "G722", clock_rate := 8000 },
         { id := 8, name := "PCMU", clock_rate := 8000 }]
      = [{ id := 0, name := "PCMU", clock_rate := 8000 },
         { id := 9, name := "G722", clock_rate := 8000 }]
    ∧ sipe_media_prune_remote_codecs
        [{ id := 0, name := "PCMU", clock_rate := 8000 },
         { id := 9, name := "G722", clock_rate := 8000 }]
        [{ id := 3, name := "G722", clock_rate := 8000 },
         { id := 8, name := "PCMU", clock_rate := 8000 }]
      ≠ prune_codecs_local_spec
        [{ id := 0, name := "PCMU", clock_rate := 8000 },
         { id := 9, name := "G722", clock_rate := 8000 }]
        [{ id := 3, name := "G722", clock_rate := 8000 },
         { id := 8, name := "PCMU", clock_rate := 8000 }]
    ∧ (sipe_media_prune_remote_codecs
        [{ id := 0, name := "PCMU", clock_rate := 8000 },
         { id := 9, name := "G722", clock_rate := 8000 }]
        [{ id := 3, name := "G722", clock_rate := 8000 },
         { id := 8, name := "PCMU", clock_rate := 8000 }]).map Codec.id ≠ [0, 9] := by
  refine ⟨by decide, by decide, by decide, by decide⟩

/-- C5 as amended: codec negotiation computes the intersection of the
remote-offered codecs with the locally supported codecs by encoding name
while preserving the REMOTE list's ordering and the REMOTE numeric codec
identifiers in its output (the result is a sublist of the remote list). -/
theorem claim_C5_amended_remote_preserved :
    ∀ (lc rc : List Codec),
      sipe_media_prune_remote_codecs lc rc
        = rc.filter (fun c => decide (∃ l ∈ lc, l.name = c.name))
      ∧ (sipe_media_prune_remote_codecs lc rc).Sublist rc := by
  intro lc rc
  refine ⟨prune_eq_filter lc rc, ?_⟩
  rw [prune_eq_filter lc rc]
  exact List.filter_sublist rc

/-- C2: whenever no candidate line is accepted (none present or all
filtered out), the candidate resolver returns exactly two synthesized
candidates — a UDP host RTP candidate at `(remote_ip, remote_port)` and a
UDP host RTCP candidate at `(remote_ip, remote_port + 1)` — and reports
`legacy_mode = true`; `sipe_media_call_init` installs exactly that list and
that latch value on the fresh call. -/
theorem claim_C2_legacy_pair_synthesized :
    ∀ (attrs : List SdpAttr) (rip : Option String) (rport : Nat),
      (∀ v ∈ attrValues attrs "candidate", parseCandidateLine v = none) →
      (sipe_media_parse_remote_candidates attrs rip rport).2 = true
      ∧ (sipe_media_parse_remote_candidates attrs rip rport).1.map
           (fun c => (c.component, c.ctype, c.protocol, c.ip, c.port))
          = [(Component.rtp, CandType.host, NetProtocol.udp, rip, rport),
             (Component.rtcp, CandType.host, NetProtocol.udp, rip, rport + 1)]
      ∧ (∀ (msg : SipMsg) (call : MediaCall),
           sipe_media_call_init msg = some call →
           call.remote_candidates
             = (sipe_media_parse_remote_candidates call.sdp_attrs call.remote_ip
                 call.remote_port).1
           ∧ call.legacy_mode
             = (sipe_media_parse_remote_candidates call.sdp_attrs call.remote_ip
                 call.remote_port).2) := by
  intro attrs rip rport hnone
  have hparsed : (attrValues attrs "candidate").filterMap parseCandidateLine = [] :=
    List.filterMap_eq_nil_iff.mpr hnone
  refine ⟨?_, ?_, ?_⟩
  · simp [sipe_media_parse_remote_candidates, hparsed]
  · by_cases hu : (navalFind attrs "ice-ufrag").isSome <;>
      simp [sipe_media_parse_remote_candidates, hparsed, hu]
  · intro msg call hinit
    unfold sipe_media_call_init at hinit
    cases hp : parseSdpInto {} msg.body with
    | none => rw [hp] at hinit; exact absurd hinit (by simp)
    | some c0 =>
      rw [hp] at hinit
      simp only [Option.some.injEq] at hinit
      subst hinit
      exact ⟨rfl, rfl⟩

/-- C6, counterexample: in the §8 legacy example (offer without
`a=candidate` lines), the formatted response SDP does NOT contain
`a=rtcp:5005` — `sipe_media_sdp_candidates_format` returns the empty
string as soon as `legacy_mode` is set, before the `a=maxptime`/`a=rtcp`
lines are ever appended. -/
theorem claim_C6_counterexample :
    ((sipe_media_incoming_invite testEnv {} { body := legacyOfferBody, callid := "cid1" }).1.media_call.map
      (fun c => (c.legacy_mode,
        (sipe_media_create_sdp testEnv c false).map
          (fun lines => decide ("a=rtcp:5005" ∈ lines)))))
    = some (true, some false) := by
  decide

/-- C6 as amended: for every Call with `legacy_mode` true, the SDP
formatter omits its whole candidate section — the ICE credential and
candidate lines, and also the `a=maxptime`/`a=rtcp` lines (the function
returns the empty string immediately).  For the §8 legacy example the
formatted response SDP is exactly the fixed lines plus codec lines and
contains no `a=rtcp:5005`. -/
theorem claim_C6_amended_legacy_omits_whole_section :
    (∀ (cands : List Candidate) (call : MediaCall) (rc : Bool),
       call.legacy_mode = true → cands ≠ [] →
       sipe_media_sdp_candidates_format cands call rc = some [])
    ∧ ((sipe_media_incoming_invite testEnv {} { body := legacyOfferBody, callid := "cid1" }).1.media_call.map
         (fun c => (c.legacy_mode, sipe_media_create_sdp testEnv c false)))
      = some (true, some
         ["v=0", "o=- 0 0 IN IP4 192.168.1.2", "s=session", "c=IN IP4 192.168.1.2",
          "b=CT:99980", "t=0 0", "m=audio 16384 RTP/AVP 0",
          "a=rtpmap:0 PCMU/8000", "a=encryption:rejected"])
    ∧ "a=rtcp:5005" ∉
         ["v=0", "o=- 0 0 IN IP4 192.168.1.2", "s=session", "c=IN IP4 192.168.1.2",
          "b=CT:99980", "t=0 0", "m=audio 16384 RTP/AVP 0",
          "a=rtpmap:0 PCMU/8000", "a=encryption:rejected"] := by
  refine ⟨?_, by decide, by decide⟩
  intro cands call rc hleg hne
  cases cands with
  | nil => exact absurd rfl hne
  | cons c0 rest =>
    simp [sipe_media_sdp_candidates_format, hleg]

/-- Witness for C6's amended theorem: a concrete legacy call. -/
theorem claim_C6_witness :
    sipe_media_sdp_candidates_format [localRtpCand]
      { runningCall with legacy_mode := true } true = some [] :=
  claim_C6_amended_legacy_omits_whole_section.1 [localRtpCand]
    { runningCall with legacy_mode := true } true rfl (by decide)

/-- C10, counterexample: a reachable non-legacy Call whose offer carried
exactly one acceptable candidate has `remote_candidates` of length 1; a
local hold then runs the `a=remote-candidates` formatting path, where the
source dereferences `remote_candidates->next->data` out of bounds (the
modelled body is `none`). -/
theorem claim_C10_counterexample :
    ((sipe_media_incoming_invite testEnv {} { body := oneCandOfferBody, callid := "cid2" }).1.media_call.map
       (fun c => (c.legacy_mode, c.remote_candidates.length)))
      = some (false, 1)
    ∧ (sipe_media_stream_info_cb testEnv
         (sipe_media_incoming_invite testEnv {} { body := oneCandOfferBody, callid := "cid2" }).1
         .hold true).2
      = [SipAction.inviteRequest true none, SipAction.engineStreamInfo .hold true] := by
  refine ⟨by decide, by decide⟩

/-- C10 as amended: the candidate resolver never returns an empty list, so
the Call's `remote_candidates` always holds at least one entry — but not
necessarily two: on the `a=remote-candidates` formatting path (flag set,
non-legacy), reading the first and second remote candidates is within
bounds exactly when the list has at least two entries. -/
theorem claim_C10_amended_at_least_one :
    (∀ (attrs : List SdpAttr) (rip : Option String) (rport : Nat),
       (sipe_media_parse_remote_candidates attrs rip rport).1 ≠ [])
    ∧ (∀ (cands : List Candidate) (call : MediaCall),
       call.legacy_mode = false → cands ≠ [] →
       ((sipe_media_sdp_candidates_format cands call true).isSome
         ↔ 2 ≤ call.remote_candidates.length)) := by
  constructor
  · intro attrs rip rport
    unfold sipe_media_parse_remote_candidates
    by_cases hp : (attrValues attrs "candidate").filterMap parseCandidateLine = []
    · by_cases hu : (navalFind attrs "ice-ufrag").isSome <;> simp [hp, hu]
    · by_cases hu : (navalFind attrs "ice-ufrag").isSome <;> simp [hp, hu]
  · intro cands call hleg hne
    cases cands with
    | nil => exact absurd rfl hne
    | cons c0 rest =>
      cases hrc : call.remote_candidates with
      | nil => simp [sipe_media_sdp_candidates_format, hleg, hrc]
      | cons f rest2 =>
        cases rest2 with
        | nil => simp [sipe_media_sdp_candidates_format, hleg, hrc]
        | cons s rest3 => simp [sipe_media_sdp_candidates_format, hleg, hrc]

/-- Witness for C10's amended theorem: the running two-candidate call. -/
theorem claim_C10_witness :
    ((sipe_media_sdp_candidates_format [localRtpCand] runningCall true).isSome
      ↔ 2 ≤ runningCall.remote_candidates.length) :=
  claim_C10_amended_at_least_one.2 [localRtpCand] runningCall rfl (by decide)

/-- C9: from Running, a local Hold event moves the Call to Held and emits
an outbound re-INVITE whose SDP body contains `a=inactive`; a remote
Unhold from Held moves the Call back to Running and emits a 200 OK whose
SDP body does not contain `a=inactive`; a Hold while already Held and an
Unhold while already Running are no-ops. -/
theorem claim_C9_hold_unhold_state_machine :
    ∀ (env : SipeEnv) (sip : SipeAccount) (call : MediaCall),
      sip.media_call = some call →
      ((call.state = SipeCallState.running →
         sipe_media_stream_info_cb env sip .hold true
           = ({ media_call := some { call with state := SipeCallState.held } },
              [SipAction.inviteRequest true
                 (sipe_media_create_sdp env { call with state := SipeCallState.held } true),
               SipAction.engineStreamInfo .hold true])
         ∧ ∀ lines,
             sipe_media_create_sdp env { call with state := SipeCallState.held } true
               = some lines → "a=inactive" ∈ lines)
       ∧ (call.state = SipeCallState.held →
         sipe_media_stream_info_cb env sip .unhold false
           = ({ media_call := some { call with state := SipeCallState.running } },
              [SipAction.response 200 "OK"
                 (sipe_media_create_sdp env { call with state := SipeCallState.running } true),
               SipAction.engineStreamInfo .unhold true])
         ∧ ∀ lines,
             sipe_media_create_sdp env { call with state := SipeCallState.running } true
               = some lines → "a=inactive" ∉ lines)
       ∧ (call.state = SipeCallState.held →
           sipe_media_stream_info_cb env sip .hold true = (sip, []))
       ∧ (call.state = SipeCallState.running →
           sipe_media_stream_info_cb env sip .unhold false = (sip, []))) := by
  intro env sip call hmc
  refine ⟨?_, ?_, ?_, ?_⟩
  · intro hrun
    have hne : ¬ call.state = SipeCallState.held := by
      rw [hrun]
      decide
    constructor
    · simp only [sipe_media_stream_info_cb, hmc]
      rw [if_neg hne]
      simp [notify_state_change, sipe_invite_call]
    · intro lines hl
      exact (create_sdp_inactive_iff env _ true lines hl).mpr rfl
  · intro hheld
    have hne : ¬ call.state = SipeCallState.running := by
      rw [hheld]
      decide
    constructor
    · simp only [sipe_media_stream_info_cb, hmc]
      rw [if_neg hne]
      simp [notify_state_change]
    · intro lines hl
      intro hmem
      have hmp := (create_sdp_inactive_iff env _ true lines hl).mp hmem
      have hrn : SipeCallState.running = SipeCallState.held := hmp
      exact absurd hrn (by decide)
  · intro hheld
    simp only [sipe_media_stream_info_cb, hmc]
    rw [if_pos hheld]
  · intro hrun
    simp only [sipe_media_stream_info_cb, hmc]
    rw [if_pos hrun]

/-- Witness for C9: the running two-candidate call under the concrete
environment, held and then unheld. -/
theorem claim_C9_witness :
    (sipe_media_stream_info_cb testEnv { media_call := some runningCall } .hold true
      = ({ media_call := some { runningCall with state := SipeCallState.held } },
         [SipAction.inviteRequest true
            (sipe_media_create_sdp testEnv { runningCall with state := SipeCallState.held } true),
          SipAction.engineStreamInfo .hold true]))
    ∧ (sipe_media_stream_info_cb testEnv
         { media_call := some { runningCall with state := SipeCallState.held } } .unhold false
      = ({ media_call := some { runningCall with state := SipeCallState.running } },
         [SipAction.response 200 "OK"
            (sipe_media_create_sdp testEnv { runningCall with state := SipeCallState.running } true),
          SipAction.engineStreamInfo .unhold true]))
    ∧ (sipe_media_stream_info_cb testEnv
         { media_call := some { runningCall with state := SipeCallState.held } } .hold true
      = ({ media_call := some { runningCall with state := SipeCallState.held } }, [])) := by
  have h1 := claim_C9_hold_unhold_state_machine testEnv
    { media_call := some runningCall } runningCall rfl
  have h2 := claim_C9_hold_unhold_state_machine testEnv
    { media_call := some { runningCall with state := SipeCallState.held } }
    { runningCall with state := SipeCallState.held } rfl
  refine ⟨(h1.1 rfl).1, ?_, h2.2.2.1 rfl⟩
  have := (h2.2.1 rfl).1
  simpa using this

/-- C7: a re-INVITE carrying the active Call's call-id re-parses the SDP
into the existing Call (replacing `sdp_attrs`) and then executes exactly
one of, in priority order: (a) remote Hold if legacy-mode and Running;
(b) remote Hold if the new attributes contain an `inactive` marker;
(c) remote Unhold if Held; (d) a fresh codec negotiation round answered
with 200 OK and updated SDP. -/
theorem claim_C7_reinvite_priority_dispatch :
    ∀ (env : SipeEnv) (sip : SipeAccount) (call : MediaCall) (msg : SipMsg)
      (attrs : List SdpAttr) (rip : Option String) (rport : Nat),
      sip.media_call = some call →
      call.callid = msg.callid →
      sipe_media_parse_sdp_frame msg.body = some (attrs, rip, rport) →
      sipe_media_incoming_invite env sip msg
        = (let call2 : MediaCall := { call with invitation := some msg, sdp_attrs := attrs, remote_ip := rip, remote_port := rport }
           let pruned := sipe_media_prune_remote_codecs env.local_codecs (sipe_media_parse_remote_codecs attrs)
           let call3 : MediaCall := { call2 with remote_codecs := pruned }
           if call.legacy_mode ∧ call.state = SipeCallState.running then
             ({ media_call := some call2 }, [SipAction.engineStreamInfo .hold false])
           else if hasAttr attrs "inactive" then
             ({ media_call := some call2 }, [SipAction.engineStreamInfo .hold false])
           else if call.state = SipeCallState.held then
             ({ media_call := some call2 }, [SipAction.engineStreamInfo .unhold false])
           else
             ({ media_call := some call3 },
              [SipAction.engineSetRemoteCodecs pruned,
               SipAction.response 200 "OK" (sipe_media_create_sdp env call3 true)])) := by
  intro env sip call msg attrs rip rport hmc hcid hparse
  have hsplit : parseSdpInto { call with invitation := some msg, sdp_attrs := [] } msg.body
      = some { call with invitation := some msg, sdp_attrs := attrs, remote_ip := rip, remote_port := rport } := by
    unfold parseSdpInto
    rw [hparse]
    rfl
  simp only [sipe_media_incoming_invite, hmc]
  rw [if_pos hcid, hsplit]

/-- Witness for C7: a re-INVITE with body `a=inactive` against the running
call takes the remote-Hold branch (b). -/
theorem claim_C7_witness :
    sipe_media_incoming_invite testEnv { media_call := some runningCall }
      { body := "a=inactive", callid := "cid1" }
    = ({ media_call := some { runningCall with
           invitation := some { body := "a=inactive", callid := "cid1" },
           sdp_attrs := [("inactive", none)], remote_ip := none, remote_port := 0 } },
       [SipAction.engineStreamInfo .hold false]) := by
  have h := claim_C7_reinvite_priority_dispatch testEnv
    { media_call := some runningCall } runningCall
    { body := "a=inactive", callid := "cid1" }
    [("inactive", none)] none 0 rfl rfl (by decide)
  rw [h]
  decide

/-- `parseSdpInto` only replaces `sdp_attrs`, `remote_ip` and
`remote_port`. -/
theorem parseSdpInto_preserves (call : MediaCall) (frame : String) (c : MediaCall)
    (h : parseSdpInto call frame = some c) :
    c.legacy_mode = call.legacy_mode ∧ c.state = call.state
      ∧ c.callid = call.callid ∧ c.remote_candidates = call.remote_candidates := by
  unfold parseSdpInto at h
  cases hp : sipe_media_parse_sdp_frame frame with
  | none =>
    rw [hp] at h
    cases h
  | some t =>
    rw [hp] at h
    cases h
    exact ⟨rfl, rfl, rfl, rfl⟩

/-- `sipe_media_session_ready_cb` never touches `legacy_mode`. -/
theorem session_ready_preserves_legacy (env : SipeEnv) (call : MediaCall) :
    (sipe_media_session_ready_cb env call).1.legacy_mode = call.legacy_mode := by
  unfold sipe_media_session_ready_cb
  by_cases hp : env.prepared <;> by_cases hn : call.sdp_response.isNone <;>
    by_cases ha : env.accepted <;> by_cases hl : call.legacy_mode <;>
      simp [hp, hn, ha, hl]

/-- One event step never resets `legacy_mode`: if the active call is in
legacy mode, then after any event the call slot is either empty (the call
was destroyed) or still a legacy-mode call. -/
theorem step_preserves_legacy (env : SipeEnv) (sip : SipeAccount) (ev : SipeEvent)
    (call : MediaCall) (hmc : sip.media_call = some call)
    (hleg : call.legacy_mode = true) :
    ∀ call', (stepEvent env sip ev).1.media_call = some call' →
      call'.legacy_mode = true := by
  cases ev with
  | invite msg =>
    intro call' h'
    simp only [stepEvent, sipe_media_incoming_invite, hmc] at h'
    by_cases hcid : call.callid = msg.callid
    · rw [if_pos hcid] at h'
      have hleg2 : (match parseSdpInto { call with invitation := some msg, sdp_attrs := [] } msg.body with
          | some c => c
          | none => { call with invitation := some msg, sdp_attrs := [] }).legacy_mode = true := by
        cases hp : parseSdpInto { call with invitation := some msg, sdp_attrs := [] } msg.body with
        | none => exact hleg
        | some c =>
          have := (parseSdpInto_preserves _ _ _ hp).1
          rw [this]
          exact hleg
      revert h'
      split
      · intro h'
        cases h'
        exact hleg2
      · split
        · intro h'
          cases h'
          exact hleg2
        · split
          · intro h'
            cases h'
            exact hleg2
          · intro h'
            cases h'
            exact hleg2
    · rw [if_neg hcid] at h'
      rw [hmc] at h'
      cases h'
      exact hleg
  | mediaInfo t l =>
    intro call' h'
    cases t with
    | accept =>
      simp only [stepEvent, sipe_media_stream_info_cb, hmc] at h'
      cases h'
      rw [session_ready_preserves_legacy]
      exact hleg
    | reject =>
      simp only [stepEvent, sipe_media_stream_info_cb, hmc] at h'
      cases h'
    | hold =>
      simp only [stepEvent, sipe_media_stream_info_cb, hmc] at h'
      revert h'
      split
      · intro h'
        rw [hmc] at h'
        cases h'
        exact hleg
      · intro h'
        cases h'
        exact hleg
    | unhold =>
      simp only [stepEvent, sipe_media_stream_info_cb, hmc] at h'
      revert h'
      split
      · intro h'
        rw [hmc] at h'
        cases h'
        exact hleg
      · intro h'
        cases h'
        exact hleg
    | hangup =>
      simp only [stepEvent, sipe_media_stream_info_cb, hmc] at h'
      cases h'
  | sessionReady =>
    intro call' h'
    simp only [stepEvent, hmc] at h'
    cases h'
    rw [session_ready_preserves_legacy]
    exact hleg
  | uiHold =>
    intro call' h'
    simp only [stepEvent] at h'
    rw [hmc] at h'
    cases h'
    exact hleg
  | uiUnhold =>
    intro call' h'
    simp only [stepEvent] at h'
    rw [hmc] at h'
    cases h'
    exact hleg
  | uiHangup =>
    intro call' h'
    simp only [stepEvent] at h'
    rw [hmc] at h'
    cases h'
    exact hleg

/-- C3: `legacy_mode` is a one-way latch.  For every event sequence after
which the Call is still alive at every intermediate point (its lifetime
has not ended), once `legacy_mode` is true it is still true at the end —
no re-INVITE, hold/unhold, accept callback or negotiation round resets
it. -/
theorem claim_C3_legacy_latch :
    ∀ (env : SipeEnv) (evs : List SipeEvent) (sip : SipeAccount) (call : MediaCall),
      sip.media_call = some call →
      call.legacy_mode = true →
      (∀ n, n ≤ evs.length → (runEvents env sip (evs.take n)).media_call ≠ none) →
      ∀ call', (runEvents env sip evs).media_call = some call' →
        call'.legacy_mode = true := by
  intro env evs
  induction evs with
  | nil =>
    intro sip call hmc hleg _ call' h'
    rw [runEvents, hmc] at h'
    cases h'
    exact hleg
  | cons e rest ih =>
    intro sip call hmc hleg halive call' h'
    have halive1 : (stepEvent env sip e).1.media_call ≠ none := by
      have h1 := halive 1 (by simp)
      simpa [runEvents, List.take] using h1
    obtain ⟨c1, hc1⟩ : ∃ c1, (stepEvent env sip e).1.media_call = some c1 := by
      cases hx : (stepEvent env sip e).1.media_call with
      | none => exact absurd hx halive1
      | some c1 => exact ⟨c1, rfl⟩
    have hc1leg := step_preserves_legacy env sip e call hmc hleg c1 hc1
    refine ih (stepEvent env sip e).1 c1 hc1 hc1leg ?_ call' h'
    intro n hn
    have h2 := halive (n + 1) (by simpa using Nat.succ_le_succ hn)
    simpa [runEvents, List.take] using h2

/-- Witness for C3: a legacy running call held locally; after the event the
active call is still in legacy mode. -/
theorem claim_C3_witness :
    ({ runningCall with legacy_mode := true, state := SipeCallState.held } : MediaCall).legacy_mode = true :=
  claim_C3_legacy_latch testEnv [SipeEvent.mediaInfo .hold true]
    { media_call := some { runningCall with legacy_mode := true } }
    { runningCall with legacy_mode := true } rfl rfl
    (by decide)
    { runningCall with legacy_mode := true, state := SipeCallState.held }
    (by decide)

/-- Witness for C2 at a concrete input: a single candidate line that is
filtered out (TCP transport). -/
theorem claim_C2_witness :
    (sipe_media_parse_remote_candidates
       [("candidate", some "1 1 TCP 2130706431 10.0.0.5 5004 typ host")]
       (some "10.0.0.5") 5004).2 = true
    ∧ (sipe_media_parse_remote_candidates
         [("candidate", some "1 1 TCP 2130706431 10.0.0.5 5004 typ host")]
         (some "10.0.0.5") 5004).1.map
           (fun c => (c.component, c.ctype, c.protocol, c.ip, c.port))
        = [(Component.rtp, CandType.host, NetProtocol.udp, some "10.0.0.5", 5004),
           (Component.rtcp, CandType.host, NetProtocol.udp, some "10.0.0.5", 5005)] := by
  have h := claim_C2_legacy_pair_synthesized
    [("candidate", some "1 1 TCP 2130706431 10.0.0.5 5004 typ host")]
    (some "10.0.0.5") 5004 (by decide)
  exact ⟨h.1, h.2.1⟩

end SipeMedia
